import Mathlib

/-!
Verification of the `infrasys` tool (tools/infrasys): a shallow embedding in
Lean 4 of the provisioning pipeline's pure logic — prefix formatting, KMS
key-assignment bookkeeping, stack-output extraction, bucket-policy merging,
the readiness-polling loop, the orchestrator's output-field assignment and
lock-file emission, and the configuration model's lock-file round-trip.

Effectful pieces (subprocess invocations of `tuftool`, AWS calls, sleeps)
are modelled by recording the calls that would be issued and by passing the
responses in as explicit inputs; `&mut` parameters become explicit state
passed in and returned; Rust `Result` becomes `Except`, and a Rust panic
(out-of-bounds index) is modelled as a distinguished error value.
-/

/-- The error kinds of `infrasys::error` that the embedded fragments can
raise.  `panicIndex` stands for a Rust panic (index out of bounds), which is
not a `snafu` error but still aborts instead of returning a value. -/
inductive Err where
  | parseInt (what : String)
  | invalidThreshold (threshold : String) (num_keys : Nat)
  | missingConfig (missing : String)
  | keyCreation
  | parseResponse (what : String) (resource_name : String)
  | getPolicyStatement (bucket_name : String)
  | parseUrl (input : String)
  | panicIndex (index : Nat) (len : Nat)
  deriving DecidableEq, Repr

/-- Rust's `str::starts_with`, on the character sequence (via `List` so that
concrete instances reduce in the kernel). -/
def strStartsWith (s pat : String) : Bool :=
  pat.data.isPrefixOf s.data

/-- Rust's `str::ends_with`, on the character sequence. -/
def strEndsWith (s pat : String) : Bool :=
  pat.data.reverse.isPrefixOf s.data.reverse

/-- Rust's `&s[..s.len() - n]` for the two stripping slices: drop the last
`n` characters. -/
def strDropRight (s : String) (n : Nat) : String :=
  ⟨s.data.take (s.data.length - n)⟩

/-- `s3::format_prefix` from `src/tools/infrasys/src/s3.rs`.  The source
returns the input unchanged as soon as it starts with `/`; otherwise it
prepends `/`.  The two `ends_with` branches in the source compute a stripped
string with `.to_string()` but discard the value (the statements end in `;`),
so they have no effect on the result; the discarded computations are kept
here as unused bindings to mirror the source text. -/
def format_prefix (p : String) : String :=
  if strStartsWith p "/" then
    p
  else
    let formatted := "/" ++ p
    let _discardedSlashStrip :=
      if strEndsWith formatted "/" then strDropRight formatted 1 else formatted
    let _discardedStarStrip :=
      if strEndsWith formatted "/*" then strDropRight formatted 2 else formatted
    formatted

/-- Rust's `str::parse::<usize>`: an optional leading `+`, then one or more
decimal digits, evaluated on the character sequence.  (Machine-width
overflow is not modelled; the thresholds in scope are small.) -/
def parse_usize (s : String) : Option Nat :=
  let digits := if strStartsWith s "+" then s.data.drop 1 else s.data
  if digits.isEmpty then none
  else if digits.all Char.isDigit then
    some (digits.foldl (fun n c => n * 10 + (c.toNat - 48)) 0)
  else none

/-- One invocation of the `tuftool!` macro: the region passed to the
`AWS_REGION` environment variable and the formatted argument string. -/
structure TuftoolCall where
  region : String
  args : String
  deriving DecidableEq, Repr

/-- `shared::KeyRole` from `src/tools/infrasys/src/shared.rs`. -/
inductive KeyRole where
  | Root
  | Publication
  deriving DecidableEq, Repr

/-- Result of `root::add_keys_kms`: the final value of the `&mut
Option<String>` key-id parameter, the `tuftool` invocations issued, and the
error, if any, that the function returned.  Returning the state alongside
the optional error mirrors in-place mutation: on an error path the caller
still holds the (unchanged) key id. -/
structure KmsResult where
  key_id : Option String
  calls : List TuftoolCall
  err : Option Err
  deriving DecidableEq, Repr

/-- The `tuftool` argument strings built in the `KeyRole::Root` arm of
`add_keys_kms`: one `set-threshold` and one `add-key` per available key. -/
def rootRoleCalls (defaultRegion : String) (available_keys : List (String × String))
    (threshold : String) (filepath : String) : List TuftoolCall :=
  { region := defaultRegion
    args := "root set-threshold '" ++ filepath ++ "' root '" ++ threshold ++ "' " } ::
  available_keys.map fun kr =>
    { region := kr.2
      args := "root add-key '" ++ filepath ++ "' aws-kms:///'" ++ kr.1 ++ "' --role root" }

/-- The `tuftool` argument strings built in the `KeyRole::Publication` arm of
`add_keys_kms`: three `set-threshold` calls (snapshot, targets, timestamp)
and one `add-key` per available key covering all three roles. -/
def publicationRoleCalls (defaultRegion : String) (available_keys : List (String × String))
    (threshold : String) (filepath : String) : List TuftoolCall :=
  { region := defaultRegion
    args := "root set-threshold '" ++ filepath ++ "' snapshot '" ++ threshold ++ "' " } ::
  { region := defaultRegion
    args := "root set-threshold '" ++ filepath ++ "' targets '" ++ threshold ++ "' " } ::
  { region := defaultRegion
    args := "root set-threshold '" ++ filepath ++ "' timestamp '" ++ threshold ++ "' " } ::
  available_keys.map fun kr =>
    { region := kr.2
      args := "root add-key '" ++ filepath ++ "' aws-kms:///'" ++ kr.1
        ++ "' --role snapshot --role targets --role timestamp" }

/-- `root::add_keys_kms` from `src/tools/infrasys/src/root.rs`.  The
`HashMap<String, String>` of available keys is modelled as an association
list whose order is the hash map's (arbitrary) iteration order.  `tuftool`
subprocess outcomes are abstracted: each invocation is recorded and assumed
to succeed (a subprocess failure would abort with a `TuftoolResult` error,
which none of the verified claims depend on). -/
def add_keys_kms (defaultRegion : String) (available_keys : List (String × String))
    (role : KeyRole) (threshold : String) (filepath : String)
    (key_id : Option String) : KmsResult :=
  match parse_usize threshold with
  | none => { key_id := key_id, calls := [], err := some (.parseInt threshold) }
  | some n =>
    if available_keys.length < n then
      { key_id := key_id, calls := []
        err := some (.invalidThreshold threshold available_keys.length) }
    else
      match role with
      | .Root =>
        { key_id := key_id
          calls := rootRoleCalls defaultRegion available_keys threshold filepath
          err := none }
      | .Publication =>
        let calls := publicationRoleCalls defaultRegion available_keys threshold filepath
        match key_id with
        | some v => { key_id := some v, calls := calls, err := none }
        | none =>
          match available_keys with
          | [] => { key_id := none, calls := calls, err := some .keyCreation }
          | (k, _) :: _ => { key_id := some k, calls := calls, err := none }

/-- `pubsys_config::SigningKeyConfig` as used by `root.rs`: a closed set of
variants, of which only `kms` carries the key-id / available-keys data. -/
inductive SigningKeyConfig where
  | file (path : String)
  | kms (key_id : Option String) (config : Option (List (String × String)))
  | ssm (parameter : String)
  deriving DecidableEq, Repr

/-- Result of `root::add_keys`: the final signing-key configuration (the
`&mut` parameter), the `tuftool` calls issued, and the optional error. -/
structure AddKeysResult where
  config : SigningKeyConfig
  calls : List TuftoolCall
  err : Option Err
  deriving DecidableEq, Repr

/-- `root::add_keys` from `src/tools/infrasys/src/root.rs`: dispatch over the
key-backend variant; `file` and `ssm` are no-ops, `kms` requires the inner
`config` (else `MissingConfig`) and delegates to `add_keys_kms`. -/
def add_keys (defaultRegion : String) (signing_key_config : SigningKeyConfig)
    (role : KeyRole) (threshold : String) (filepath : String) : AddKeysResult :=
  match signing_key_config with
  | .file p => { config := .file p, calls := [], err := none }
  | .ssm p => { config := .ssm p, calls := [], err := none }
  | .kms key_id cfg =>
    match cfg with
    | none =>
      { config := .kms key_id none, calls := []
        err := some (.missingConfig "config field for a kms key") }
    | some available_keys =>
      let r := add_keys_kms defaultRegion available_keys role threshold filepath key_id
      { config := .kms r.key_id (some available_keys), calls := r.calls, err := r.err }

/-- One element of the `Outputs` array in a CloudFormation `describe_stacks`
response (`rusoto_cloudformation::Output`): both fields are optional. -/
structure StackOutput where
  output_key : Option String
  output_value : Option String
  deriving DecidableEq, Repr

/-- Rust slice indexing `xs[i]`, which panics when `i` is out of bounds:
modelled as `Except` with the `panicIndex` error standing for the panic. -/
def indexGet (xs : List α) (i : Nat) : Except Err α :=
  match xs.get? i with
  | some x => .ok x
  | none => .error (.panicIndex i xs.length)

/-- The output-extraction tail of `s3::create_s3_bucket`
(`src/tools/infrasys/src/s3.rs`): the `stack_id` of the create-stack
response and the first two stack outputs become `(stack_arn, bucket_name,
bucket_url)`.  The network calls themselves are abstracted into the
`stack_id` and `outputs` inputs. -/
def create_s3_bucket_outputs (stack_name : String) (stack_id : Option String)
    (outputs : List StackOutput) : Except Err (String × String × String) :=
  match stack_id with
  | none => .error (.parseResponse "stack_id" stack_name)
  | some stack_arn =>
    match indexGet outputs 0 with
    | .error e => .error e
    | .ok o0 =>
      match o0.output_value with
      | none => .error (.parseResponse "outputs[0].output_value (bucket name)" stack_name)
      | some bucket_name =>
        match indexGet outputs 1 with
        | .error e => .error e
        | .ok o1 =>
          match o1.output_value with
          | none =>
            .error (.parseResponse "outputs[1].output_value (bucket url)" stack_name)
          | some bucket_url => .ok (stack_arn, bucket_name, bucket_url)

/-- A `serde_json::Value` as far as the bucket-policy code needs it: strings,
arrays and objects (an object is an association list in insertion order). -/
inductive Json where
  | str (s : String)
  | arr (elems : List Json)
  | obj (fields : List (String × Json))
  deriving Repr

/-- Lookup of a key in a `Json.obj`, as `Value::get` does (first match). -/
def jsonGet (j : Json) (key : String) : Option Json :=
  match j with
  | .obj fields => fields.lookup key
  | _ => none

/-- Replace the value of the first occurrence of `key` in an object's field
list by `f` of it; models mutation through `Value::get_mut`. -/
def updateField (fields : List (String × Json)) (key : String) (f : Json → Json) :
    List (String × Json) :=
  match fields with
  | [] => []
  | (k, v) :: rest =>
    if k = key then (k, f v) :: rest else (k, v) :: updateField rest key f

/-- The new policy statement built by `s3::add_bucket_policy` from its format
string: `Allow` / `*` / `s3:GetObject`, resource
`arn:aws:s3:::<bucket><prefix>/*`, and a `StringEquals` condition on
`aws:sourceVpce`. -/
def new_bucket_policy (bucket_name pfx vpcid : String) : Json :=
  .obj [("Effect", .str "Allow"),
        ("Principal", .str "*"),
        ("Action", .str "s3:GetObject"),
        ("Resource", .str ("arn:aws:s3:::" ++ bucket_name ++ pfx ++ "/*")),
        ("Condition", .obj [("StringEquals", .obj [("aws:sourceVpce", .str vpcid)])])]

/-- The default policy `s3::add_bucket_policy` starts from when the bucket
has no policy yet: `{"Version": "2008-10-17", "Statement": []}`. -/
def empty_bucket_policy : Json :=
  .obj [("Version", .str "2008-10-17"), ("Statement", .arr [])]

/-- The policy transformation of `s3::add_bucket_policy`
(`src/tools/infrasys/src/s3.rs`): `current` is the bucket's existing policy
(`none` when `get_bucket_policy` failed, in which case the empty policy is
used), and the new statement is pushed onto the `Statement` array.  Both
`get_mut("Statement")` and `as_array_mut()` failing map to the
`GetPolicyStatement` error.  The final `put_bucket_policy` network call is
abstracted away; the returned value is the policy it would write. -/
def add_bucket_policy (bucket_name pfx vpcid : String) (current : Option Json) :
    Except Err Json :=
  let current_bp := match current with
    | some p => p
    | none => empty_bucket_policy
  match current_bp with
  | .obj fields =>
    match fields.lookup "Statement" with
    | some (.arr _) =>
      .ok (.obj (updateField fields "Statement" fun v =>
        match v with
        | .arr elems => .arr (elems ++ [new_bucket_policy bucket_name pfx vpcid])
        | other => other))
    | _ => .error (.getPolicyStatement bucket_name)
  | _ => .error (.getPolicyStatement bucket_name)

/-- The status string `shared::get_stack_outputs` waits for. -/
def createComplete : String := "CREATE_COMPLETE"

/-- The fixed sleep, in seconds, between two polls in
`shared::get_stack_outputs` (`time::Duration::from_secs(20)`). -/
def pollIntervalSecs : Nat := 20

/-- The polling loop of `shared::get_stack_outputs`
(`src/tools/infrasys/src/shared.rs`), fuel-indexed: `status i` is the
`stack_status` the `i`-th `describe_stacks` call reports (the network call
is abstracted into this input and assumed to answer; there is no failure
branch for non-success statuses in the source).  The loop returns the index
of the first poll whose status is `CREATE_COMPLETE` together with the total
seconds slept before it, and `none` when `fuel` re-polls were not enough. -/
def pollUntilComplete (status : Nat → String) : Nat → Nat → Option (Nat × Nat)
  | fuel, i =>
    if status i = createComplete then some (i, pollIntervalSecs * i)
    else
      match fuel with
      | 0 => none
      | fuel + 1 => pollUntilComplete status fuel (i + 1)

/-- `shared::get_stack_outputs`' waiting behaviour, started at the first
poll. -/
def get_stack_outputs_poll (status : Nat → String) (fuel : Nat) : Option (Nat × Nat) :=
  pollUntilComplete status fuel 0

/-- The output fields of a `pubsys_config::RepoConfig` that step 6 of
`create_infra` (`src/tools/infrasys/src/main.rs`, "Update output paramters
if not already set") assigns. -/
structure RepoOutputs where
  metadata_base_url : Option String
  targets_url : Option String
  root_role_url : Option String
  root_role_sha512 : Option String
  deriving DecidableEq, Repr

/-- The first `if` of step 6 of `create_infra`
(`src/tools/infrasys/src/main.rs`): assign `metadata_base_url` only when it
is `None`; `Url::parse` is abstracted into the `parseUrl` input (failure
raises `ParseUrl`). -/
def assign_metadata_url (parseUrl : String → Option String) (rc : RepoOutputs)
    (bucket_url pfx : String) : Except Err RepoOutputs :=
  match rc.metadata_base_url with
  | some _ => .ok rc
  | none =>
    match parseUrl (bucket_url ++ pfx ++ "/metadata/") with
    | some u => .ok { rc with metadata_base_url := some u }
    | none => .error (.parseUrl bucket_url)

/-- The second `if` of step 6 of `create_infra`: assign `targets_url` only
when it is `None`. -/
def assign_targets_url (parseUrl : String → Option String) (rc : RepoOutputs)
    (bucket_url pfx : String) : Except Err RepoOutputs :=
  match rc.targets_url with
  | some _ => .ok rc
  | none =>
    match parseUrl (bucket_url ++ pfx ++ "/targets/") with
    | some u => .ok { rc with targets_url := some u }
    | none => .error (.parseUrl bucket_url)

/-- The third `if` of step 6 of `create_infra`: when `root_role_url` is
`None`, assign it and also recompute and assign `root_role_sha512` (reading
the root document and hashing it with SHA-512 is abstracted into the
`digest` input).  `root_role_sha512`'s own previous value is never
consulted. -/
def assign_root_role_url (parseUrl : String → Option String) (rc : RepoOutputs)
    (bucket_url pfx digest : String) : Except Err RepoOutputs :=
  match rc.root_role_url with
  | some _ => .ok rc
  | none =>
    match parseUrl (bucket_url ++ pfx ++ "/root.json") with
    | some u => .ok { rc with root_role_url := some u, root_role_sha512 := some digest }
    | none => .error (.parseUrl bucket_url)

/-- Step 6 of `create_infra` (`src/tools/infrasys/src/main.rs`, "Update
output paramters if not already set"): the three `if` blocks in source
order, each aborting the run on a URL-parse failure. -/
def update_outputs (parseUrl : String → Option String) (rc : RepoOutputs)
    (bucket_url pfx digest : String) : Except Err RepoOutputs :=
  match assign_metadata_url parseUrl rc bucket_url pfx with
  | .error e => .error e
  | .ok rc1 =>
    match assign_targets_url parseUrl rc1 bucket_url pfx with
    | .error e => .error e
    | .ok rc2 => assign_root_role_url parseUrl rc2 bucket_url pfx digest

/-- The externally visible events of `create_infra`
(`src/tools/infrasys/src/main.rs`): completing the per-repository loop body
for one entry, and writing the `Infra.lock` file. -/
inductive InfraEvent where
  | processed (name : String)
  | wroteLock
  deriving DecidableEq, Repr

/-- The per-repository loop of `create_infra`: `process n` is the outcome of
the whole loop body for the repository named `n` (all its steps, abstracted
into one fallible operation; `none` = success).  The `?` operator makes the
first failure abort the loop.  Returns the events so far and the error. -/
def run_repos (process : String → Option Err) :
    List String → List InfraEvent × Option Err
  | [] => ([], none)
  | n :: rest =>
    match process n with
    | some e => ([], some e)
    | none =>
      let r := run_repos process rest
      (InfraEvent.processed n :: r.1, r.2)

/-- `create_infra` (`src/tools/infrasys/src/main.rs`): runs the repository
loop; only when every entry succeeded does step 7 write `Infra.lock`
(emitted as the `wroteLock` event); an error from the loop propagates and
the write never happens. -/
def create_infra (process : String → Option Err) (repos : List String) :
    List InfraEvent × Option Err :=
  let r := run_repos process repos
  match r.2 with
  | some e => (r.1, some e)
  | none => (r.1 ++ [InfraEvent.wroteLock], none)

/-- Modelled from the spec: the lock file is "a serialized snapshot of the
full configuration object … in a line-oriented structured text format"
(§6), produced by a serde-style serializer whose code (`pubsys_config`) is
not under `src/`.  A YAML-like value tree: null, scalar strings, and
mappings in insertion order. -/
inductive Yaml where
  | null
  | str (s : String)
  | map (fields : List (String × Yaml))
  deriving Repr

/-- Modelled from the spec: an optional string field serializes to null or a
scalar. -/
def optStrToYaml : Option String → Yaml
  | none => .null
  | some s => .str s

/-- Modelled from the spec: parse an optional string field back. -/
def yamlToOptStr : Yaml → Option (Option String)
  | .null => some none
  | .str s => some (some s)
  | .map _ => none

/-- Modelled from the spec: the `available_keys` mapping keyid→region (§3)
serializes to a mapping of scalars. -/
def keysToYamlFields (l : List (String × String)) : List (String × Yaml) :=
  l.map fun kr => (kr.1, .str kr.2)

/-- Modelled from the spec: parse an `available_keys` mapping back. -/
def keysFromYamlFields : List (String × Yaml) → Option (List (String × String))
  | [] => some []
  | (k, .str v) :: rest => (keysFromYamlFields rest).map (fun t => (k, v) :: t)
  | _ => none

/-- Modelled from the spec: an optional `available_keys` mapping. -/
def optKeysToYaml : Option (List (String × String)) → Yaml
  | none => .null
  | some l => .map (keysToYamlFields l)

/-- Modelled from the spec: parse an optional `available_keys` mapping. -/
def optKeysFromYaml : Yaml → Option (Option (List (String × String)))
  | .null => some none
  | .map fs => (keysFromYamlFields fs).map some
  | .str _ => none

/-- Modelled from the spec: a signing-key configuration serializes as an
externally tagged union over the closed variant set {file, kms, ssm} (§3,
§9 "closed tagged union"). -/
def skcToYaml : SigningKeyConfig → Yaml
  | .file path => .map [("file", .map [("path", .str path)])]
  | .kms key_id config =>
    .map [("kms", .map [("key-id", optStrToYaml key_id), ("config", optKeysToYaml config)])]
  | .ssm p => .map [("ssm", .map [("parameter", .str p)])]

/-- Modelled from the spec: parse a signing-key configuration back from its
tagged form. -/
def skcFromYaml : Yaml → Option SigningKeyConfig
  | .map [(tag, body)] =>
    if tag = "file" then
      match body with
      | .map [("path", .str path)] => some (.file path)
      | _ => none
    else if tag = "kms" then
      match body with
      | .map [("key-id", kid), ("config", cfg)] =>
        match yamlToOptStr kid, optKeysFromYaml cfg with
        | some k, some c => some (.kms k c)
        | _, _ => none
      | _ => none
    else if tag = "ssm" then
      match body with
      | .map [("parameter", .str p)] => some (.ssm p)
      | _ => none
    else none
  | _ => none

/-- Modelled from the spec: an optional signing-key configuration field. -/
def optSkcToYaml : Option SigningKeyConfig → Yaml
  | none => .null
  | some c => skcToYaml c

/-- Modelled from the spec: parse an optional signing-key configuration. -/
def optSkcFromYaml : Yaml → Option (Option SigningKeyConfig)
  | .null => some none
  | y => (skcFromYaml y).map some

/-- `pubsys_config`'s per-bucket storage configuration as `main.rs` uses it
(region, prefix, VPC endpoint, and the write-once outputs stack ARN and
bucket name); the struct itself lives outside `src/`, its fields are pinned
by their uses in `create_infra`. -/
structure S3Config where
  region : Option String
  s3_prefix : String
  vpc_endpoint_id : Option String
  stack_arn : Option String
  bucket_name : Option String
  deriving DecidableEq, Repr

/-- Modelled from the spec: serialize a storage configuration (§3
StorageConfig). -/
def s3ToYaml (c : S3Config) : Yaml :=
  .map [("region", optStrToYaml c.region),
        ("s3_prefix", .str c.s3_prefix),
        ("vpc_endpoint_id", optStrToYaml c.vpc_endpoint_id),
        ("stack_arn", optStrToYaml c.stack_arn),
        ("bucket_name", optStrToYaml c.bucket_name)]

/-- Modelled from the spec: parse a storage configuration back. -/
def s3FromYaml : Yaml → Option S3Config
  | .map [("region", r), ("s3_prefix", .str p), ("vpc_endpoint_id", v),
          ("stack_arn", a), ("bucket_name", b)] =>
    match yamlToOptStr r, yamlToOptStr v, yamlToOptStr a, yamlToOptStr b with
    | some r', some v', some a', some b' => some ⟨r', p, v', a', b'⟩
    | _, _, _, _ => none
  | _ => none

/-- `pubsys_config::RepoConfig` as `main.rs` uses it: storage-config
reference, the two key-role configurations, the two thresholds (strings),
and the four output fields; the struct lives outside `src/`, its fields are
pinned by their uses in `create_infra`. -/
structure RepoConfig where
  file_hosting_config_name : Option String
  signing_keys : Option SigningKeyConfig
  root_keys : Option SigningKeyConfig
  pub_key_threshold : Option String
  root_key_threshold : Option String
  metadata_base_url : Option String
  targets_url : Option String
  root_role_url : Option String
  root_role_sha512 : Option String
  deriving DecidableEq, Repr

/-- Modelled from the spec: serialize a repository configuration (§3
RepoConfig). -/
def repoToYaml (r : RepoConfig) : Yaml :=
  .map [("file_hosting_config_name", optStrToYaml r.file_hosting_config_name),
        ("signing_keys", optSkcToYaml r.signing_keys),
        ("root_keys", optSkcToYaml r.root_keys),
        ("pub_key_threshold", optStrToYaml r.pub_key_threshold),
        ("root_key_threshold", optStrToYaml r.root_key_threshold),
        ("metadata_base_url", optStrToYaml r.metadata_base_url),
        ("targets_url", optStrToYaml r.targets_url),
        ("root_role_url", optStrToYaml r.root_role_url),
        ("root_role_sha512", optStrToYaml r.root_role_sha512)]

/-- Modelled from the spec: parse a repository configuration back. -/
def repoFromYaml : Yaml → Option RepoConfig
  | .map [("file_hosting_config_name", f), ("signing_keys", sk), ("root_keys", rk),
          ("pub_key_threshold", pt), ("root_key_threshold", rt),
          ("metadata_base_url", mu), ("targets_url", tu),
          ("root_role_url", ru), ("root_role_sha512", rs)] =>
    match yamlToOptStr f, optSkcFromYaml sk, optSkcFromYaml rk, yamlToOptStr pt,
        yamlToOptStr rt, yamlToOptStr mu, yamlToOptStr tu, yamlToOptStr ru,
        yamlToOptStr rs with
    | some f', some sk', some rk', some pt', some rt', some mu', some tu',
        some ru', some rs' => some ⟨f', sk', rk', pt', rt', mu', tu', ru', rs'⟩
    | _, _, _, _, _, _, _, _, _ => none
  | _ => none

/-- Modelled from the spec: serialize the repository-name → RepoConfig
mapping. -/
def repoMapToYamlFields (l : List (String × RepoConfig)) : List (String × Yaml) :=
  l.map fun nr => (nr.1, repoToYaml nr.2)

/-- Modelled from the spec: parse the repository mapping back. -/
def repoMapFromYamlFields : List (String × Yaml) → Option (List (String × RepoConfig))
  | [] => some []
  | (n, y) :: rest =>
    match repoFromYaml y, repoMapFromYamlFields rest with
    | some r, some t => some ((n, r) :: t)
    | _, _ => none

/-- Modelled from the spec: serialize the bucket-name → S3Config mapping. -/
def s3MapToYamlFields (l : List (String × S3Config)) : List (String × Yaml) :=
  l.map fun nc => (nc.1, s3ToYaml nc.2)

/-- Modelled from the spec: parse the storage mapping back. -/
def s3MapFromYamlFields : List (String × Yaml) → Option (List (String × S3Config))
  | [] => some []
  | (n, y) :: rest =>
    match s3FromYaml y, s3MapFromYamlFields rest with
    | some c, some t => some ((n, c) :: t)
    | _, _ => none

/-- The provider-scoped storage section (`aws.s3` in `main.rs`); the struct
lives outside `src/`, its `s3` field is pinned by `create_infra`. -/
structure AwsConfig where
  s3 : Option (List (String × S3Config))
  deriving DecidableEq, Repr

/-- `pubsys_config::InfraConfig` as `main.rs` uses it: the `repo` mapping
and the `aws` section (§3 InfraConfig). -/
structure InfraConfig where
  repo : Option (List (String × RepoConfig))
  aws : Option AwsConfig
  deriving DecidableEq, Repr

/-- Modelled from the spec: an optional storage mapping. -/
def optS3MapToYaml : Option (List (String × S3Config)) → Yaml
  | none => .null
  | some l => .map (s3MapToYamlFields l)

/-- Modelled from the spec: parse an optional storage mapping back. -/
def optS3MapFromYaml : Yaml → Option (Option (List (String × S3Config)))
  | .null => some none
  | .map fs => (s3MapFromYamlFields fs).map some
  | .str _ => none

/-- Modelled from the spec: serialize the aws section. -/
def awsToYaml (a : AwsConfig) : Yaml :=
  .map [("s3", optS3MapToYaml a.s3)]

/-- Modelled from the spec: parse the aws section back. -/
def awsFromYaml : Yaml → Option AwsConfig
  | .map [("s3", sv)] => (optS3MapFromYaml sv).map fun l => (⟨l⟩ : AwsConfig)
  | _ => none

/-- Modelled from the spec: an optional repository mapping. -/
def optRepoMapToYaml : Option (List (String × RepoConfig)) → Yaml
  | none => .null
  | some l => .map (repoMapToYamlFields l)

/-- Modelled from the spec: parse an optional repository mapping back. -/
def optRepoMapFromYaml : Yaml → Option (Option (List (String × RepoConfig)))
  | .null => some none
  | .map fs => (repoMapFromYamlFields fs).map some
  | .str _ => none

/-- Modelled from the spec: an optional aws section. -/
def optAwsToYaml : Option AwsConfig → Yaml
  | none => .null
  | some a => awsToYaml a

/-- Modelled from the spec: parse an optional aws section back. -/
def optAwsFromYaml : Yaml → Option (Option AwsConfig)
  | .null => some none
  | y => (awsFromYaml y).map some

/-- Modelled from the spec: serialize the whole configuration object to the
lock-file value tree (`serde_yaml::to_string` up to text rendering). -/
def infraToYaml (c : InfraConfig) : Yaml :=
  .map [("repo", optRepoMapToYaml c.repo), ("aws", optAwsToYaml c.aws)]

/-- Modelled from the spec: parse the whole configuration back
(`InfraConfig::from_lock_path` up to text parsing). -/
def infraFromYaml : Yaml → Option InfraConfig
  | .map [("repo", rv), ("aws", av)] =>
    match optRepoMapFromYaml rv, optAwsFromYaml av with
    | some r, some a => some ⟨r, a⟩
    | _, _ => none
  | _ => none

/-- Whether an outcome of the key-assignment operation is the
`InvalidThreshold` error (of any payload). -/
def isInvalidThresholdErr : Option Err → Bool
  | some (.invalidThreshold _ _) => true
  | _ => false

/-- A sequence of further `add_keys_kms` calls with the `Publication` role
against the same role configuration: each call carries its own snapshot of
`available_keys` (in particular, any iteration order of the hash map) and
its own threshold and filepath; the key id is threaded through. -/
def repeated_add_keys_kms (defaultRegion : String)
    (calls : List (List (String × String) × String × String))
    (key_id : Option String) : Option String :=
  calls.foldl
    (fun kid c => (add_keys_kms defaultRegion c.1 .Publication c.2.1 c.2.2 kid).key_id)
    key_id

/-- Replace the value of the first occurrence of `key` by `v`; the
specialization of `updateField` used to state the policy-merge theorem. -/
def setField : List (String × Json) → String → Json → List (String × Json)
  | [], _, _ => []
  | (k, w) :: rest, key, v =>
    if k = key then (k, v) :: rest else (k, w) :: setField rest key v

@[simp] theorem yamlToOptStr_optStrToYaml (o : Option String) :
    yamlToOptStr (optStrToYaml o) = some o := by
  cases o <;> rfl

@[simp] theorem keysFromYamlFields_keysToYamlFields (l : List (String × String)) :
    keysFromYamlFields (keysToYamlFields l) = some l := by
  induction l with
  | nil => rfl
  | cons kr rest ih => simp [keysToYamlFields, keysFromYamlFields] at ih ⊢; simp [ih]

@[simp] theorem optKeysFromYaml_optKeysToYaml (o : Option (List (String × String))) :
    optKeysFromYaml (optKeysToYaml o) = some o := by
  cases o with
  | none => rfl
  | some l => simp [optKeysToYaml, optKeysFromYaml]

@[simp] theorem skcFromYaml_skcToYaml (c : SigningKeyConfig) :
    skcFromYaml (skcToYaml c) = some c := by
  cases c with
  | file path => rfl
  | kms key_id config => simp [skcToYaml, skcFromYaml]
  | ssm p => rfl

@[simp] theorem optSkcFromYaml_optSkcToYaml (o : Option SigningKeyConfig) :
    optSkcFromYaml (optSkcToYaml o) = some o := by
  cases o with
  | none => rfl
  | some c =>
    obtain ⟨fs, hfs⟩ : ∃ fs, skcToYaml c = Yaml.map fs := by
      cases c <;> exact ⟨_, rfl⟩
    have h1 : optSkcToYaml (some c) = skcToYaml c := rfl
    have h2 : optSkcFromYaml (Yaml.map fs) = (skcFromYaml (Yaml.map fs)).map some := rfl
    rw [h1, hfs, h2, ← hfs, skcFromYaml_skcToYaml]
    rfl

@[simp] theorem s3FromYaml_s3ToYaml (c : S3Config) :
    s3FromYaml (s3ToYaml c) = some c := by
  simp [s3ToYaml, s3FromYaml]

@[simp] theorem repoFromYaml_repoToYaml (r : RepoConfig) :
    repoFromYaml (repoToYaml r) = some r := by
  simp [repoToYaml, repoFromYaml]

@[simp] theorem repoMapFromYamlFields_repoMapToYamlFields (l : List (String × RepoConfig)) :
    repoMapFromYamlFields (repoMapToYamlFields l) = some l := by
  induction l with
  | nil => rfl
  | cons nr rest ih => simp [repoMapToYamlFields, repoMapFromYamlFields] at ih ⊢; simp [ih]

@[simp] theorem s3MapFromYamlFields_s3MapToYamlFields (l : List (String × S3Config)) :
    s3MapFromYamlFields (s3MapToYamlFields l) = some l := by
  induction l with
  | nil => rfl
  | cons nc rest ih => simp [s3MapToYamlFields, s3MapFromYamlFields] at ih ⊢; simp [ih]

@[simp] theorem optS3MapFromYaml_optS3MapToYaml (o : Option (List (String × S3Config))) :
    optS3MapFromYaml (optS3MapToYaml o) = some o := by
  cases o with
  | none => rfl
  | some l => simp [optS3MapToYaml, optS3MapFromYaml]

@[simp] theorem awsFromYaml_awsToYaml (a : AwsConfig) :
    awsFromYaml (awsToYaml a) = some a := by
  rcases a with ⟨s⟩
  simp [awsToYaml, awsFromYaml]

@[simp] theorem optRepoMapFromYaml_optRepoMapToYaml
    (o : Option (List (String × RepoConfig))) :
    optRepoMapFromYaml (optRepoMapToYaml o) = some o := by
  cases o with
  | none => rfl
  | some l => simp [optRepoMapToYaml, optRepoMapFromYaml]

@[simp] theorem optAwsFromYaml_optAwsToYaml (o : Option AwsConfig) :
    optAwsFromYaml (optAwsToYaml o) = some o := by
  cases o with
  | none => rfl
  | some a =>
    have h1 : optAwsToYaml (some a) = awsToYaml a := rfl
    have h2 : ∀ fs, optAwsFromYaml (Yaml.map fs) = (awsFromYaml (Yaml.map fs)).map some :=
      fun _ => rfl
    rw [h1, show awsToYaml a = Yaml.map [("s3", optS3MapToYaml a.s3)] from rfl, h2,
      show Yaml.map [("s3", optS3MapToYaml a.s3)] = awsToYaml a from rfl,
      awsFromYaml_awsToYaml]
    rfl

/-- C9: for every configuration object, serializing it to the lock-file
value tree and re-parsing yields the original structure (hence a second
serialization is identical to the first). -/
theorem infra_lock_roundtrip (c : InfraConfig) :
    infraFromYaml (infraToYaml c) = some c := by
  rcases c with ⟨repo, aws⟩
  simp [infraToYaml, infraFromYaml]

theorem add_keys_kms_root_key_id (dr : String) (keys : List (String × String))
    (t f : String) (kid : Option String) :
    (add_keys_kms dr keys .Root t f kid).key_id = kid := by
  cases hp : parse_usize t with
  | none => simp [add_keys_kms, hp]
  | some n =>
    by_cases h : keys.length < n <;> simp [add_keys_kms, hp, h]

theorem add_keys_kms_pub_preserves (dr : String) (keys : List (String × String))
    (t f : String) (v : String) :
    (add_keys_kms dr keys .Publication t f (some v)).key_id = some v := by
  cases hp : parse_usize t with
  | none => simp [add_keys_kms, hp]
  | some n =>
    by_cases h : keys.length < n <;> simp [add_keys_kms, hp, h]

/-- C1 (evaluating the code at the spec's inputs): `format_prefix` prepends
the missing leading slash for `"tuf"`, but returns `"/tuf/"` and `"/tuf/*"`
unchanged — the trailing-`/` and trailing-`/*` stripped strings are computed
and then discarded, so the claimed result `"/tuf"` is produced only for the
first input. -/
theorem format_prefix_at_spec_inputs :
    format_prefix "tuf" = "/tuf" ∧ format_prefix "/tuf/" = "/tuf/" ∧
    format_prefix "/tuf/*" = "/tuf/*" :=
  ⟨by decide, by decide, by decide⟩

/-- C2: on a kms configuration, key assignment fails with `InvalidThreshold`
exactly when the parsed threshold exceeds the number of available keys, and
a non-numeric threshold yields the distinct `ParseInt` error. -/
theorem add_keys_kms_threshold_check (dr : String) (keys : List (String × String))
    (kid : Option String) (role : KeyRole) (t f : String) :
    (∀ n, parse_usize t = some n → keys.length < n →
      (add_keys dr (.kms kid (some keys)) role t f).err
        = some (.invalidThreshold t keys.length)) ∧
    (∀ n, parse_usize t = some n → n ≤ keys.length →
      isInvalidThresholdErr (add_keys dr (.kms kid (some keys)) role t f).err
        = false) ∧
    (parse_usize t = none →
      (add_keys dr (.kms kid (some keys)) role t f).err = some (.parseInt t)) := by
  refine ⟨fun n hp hlt => ?_, fun n hp hge => ?_, fun hp => ?_⟩
  · simp [add_keys, add_keys_kms, hp, hlt]
  · have h : ¬ keys.length < n := not_lt.mpr hge
    cases role with
    | Root => simp [add_keys, add_keys_kms, hp, h, isInvalidThresholdErr]
    | Publication =>
      cases kid with
      | some v => simp [add_keys, add_keys_kms, hp, h, isInvalidThresholdErr]
      | none =>
        cases keys with
        | nil =>
          simp only [List.length_nil] at h
          simp [add_keys, add_keys_kms, hp, h, isInvalidThresholdErr]
        | cons k rest =>
          simp only [List.length_cons] at h
          simp [add_keys, add_keys_kms, hp, h, isInvalidThresholdErr]
  · simp [add_keys, add_keys_kms, hp]

/-- Witness for C2: one available key with threshold `"2"` fails with
`InvalidThreshold "2" 1`; three available keys with threshold `"2"` do not
fail with `InvalidThreshold`; a non-numeric threshold fails with
`ParseInt`. -/
theorem add_keys_kms_threshold_check_witness :
    (add_keys "us-west-2" (.kms none (some [("key1", "us-west-2")])) .Root
      "2" "root.json").err = some (.invalidThreshold "2" 1) ∧
    isInvalidThresholdErr
      (add_keys "us-west-2" (.kms none (some [("k1", "a"), ("k2", "b"), ("k3", "c")]))
        .Root "2" "root.json").err = false ∧
    (add_keys "us-west-2" (.kms none (some [("key1", "us-west-2")])) .Root
      "x" "root.json").err = some (.parseInt "x") :=
  ⟨(add_keys_kms_threshold_check "us-west-2" [("key1", "us-west-2")] none .Root
      "2" "root.json").1 2 (by decide) (by decide),
   (add_keys_kms_threshold_check "us-west-2" [("k1", "a"), ("k2", "b"), ("k3", "c")]
      none .Root "2" "root.json").2.1 2 (by decide) (by decide),
   (add_keys_kms_threshold_check "us-west-2" [("key1", "us-west-2")] none .Root
      "x" "root.json").2.2 (by decide)⟩

/-- C3: once the publication `key_id` is `some v`, any sequence of further
`add_keys_kms` calls with the `Publication` role — each with an arbitrary
iteration order of `available_keys` and arbitrary threshold/filepath —
leaves it equal to `some v`. -/
theorem publication_key_id_stable (dr : String)
    (calls : List (List (String × String) × String × String)) (v : String) :
    repeated_add_keys_kms dr calls (some v) = some v := by
  induction calls with
  | nil => rfl
  | cons c rest ih =>
    simp only [repeated_add_keys_kms, List.foldl_cons] at ih ⊢
    rw [add_keys_kms_pub_preserves]
    exact ih

/-- C10: calling the key-assignment operation with the `Root` role leaves
the whole configuration — in particular `key_id` — unchanged, for every
variant and every initial `key_id`; within `add_keys_kms` the `Root` branch
never writes the key id. -/
theorem add_keys_root_never_writes_key_id (dr : String) (cfg : SigningKeyConfig)
    (keys : List (String × String)) (kid : Option String) (t f : String) :
    (add_keys dr cfg .Root t f).config = cfg ∧
    (add_keys_kms dr keys .Root t f kid).key_id = kid := by
  constructor
  · cases cfg with
    | file p => rfl
    | ssm p => rfl
    | kms k c =>
      cases c with
      | none => rfl
      | some ks => simp [add_keys, add_keys_kms_root_key_id]
  · exact add_keys_kms_root_key_id dr keys t f kid

theorem pollUntilComplete_none_of_never (status : Nat → String)
    (h : ∀ n, status n ≠ createComplete) :
    ∀ fuel i, pollUntilComplete status fuel i = none := by
  intro fuel
  induction fuel with
  | zero =>
    intro i
    unfold pollUntilComplete
    simp [h i]
  | succ fuel ih =>
    intro i
    unfold pollUntilComplete
    simp [h i]
    exact ih (i + 1)

theorem pollUntilComplete_sound (status : Nat → String) :
    ∀ fuel i i' secs, pollUntilComplete status fuel i = some (i', secs) →
      status i' = createComplete ∧ i ≤ i' ∧
      (∀ j, i ≤ j → j < i' → status j ≠ createComplete) ∧
      secs = pollIntervalSecs * i' := by
  intro fuel
  induction fuel with
  | zero =>
    intro i i' secs h
    unfold pollUntilComplete at h
    by_cases hs : status i = createComplete
    · simp [hs] at h
      obtain ⟨h1, h2⟩ := h
      subst h1; subst h2
      exact ⟨hs, le_refl i, fun j hji hjlt => absurd (lt_of_le_of_lt hji hjlt) (lt_irrefl i),
        rfl⟩
    · simp [hs] at h
  | succ fuel ih =>
    intro i i' secs h
    unfold pollUntilComplete at h
    by_cases hs : status i = createComplete
    · simp [hs] at h
      obtain ⟨h1, h2⟩ := h
      subst h1; subst h2
      exact ⟨hs, le_refl i, fun j hji hjlt => absurd (lt_of_le_of_lt hji hjlt) (lt_irrefl i),
        rfl⟩
    · simp [hs] at h
      obtain ⟨h1, h2, h3, h4⟩ := ih (i + 1) i' secs h
      refine ⟨h1, by omega, fun j hji hjlt => ?_, h4⟩
      rcases Nat.eq_or_lt_of_le hji with hj | hj
      · rw [← hj]; exact hs
      · exact h3 j hj hjlt

/-- C4: the polling loop of `get_stack_outputs` returns only when it has
observed the status `CREATE_COMPLETE` (every earlier poll saw some other
status), having slept the fixed 20-second interval between successive
polls; and on a status sequence that never reaches `CREATE_COMPLETE` —
including terminal failure statuses such as rollback — it never returns,
for any amount of fuel: the source has no failure branch. -/
theorem get_stack_outputs_poll_spec (status : Nat → String) (fuel : Nat) :
    (∀ i secs, get_stack_outputs_poll status fuel = some (i, secs) →
      status i = createComplete ∧ (∀ j, j < i → status j ≠ createComplete) ∧
      secs = pollIntervalSecs * i) ∧
    ((∀ n, status n ≠ createComplete) → get_stack_outputs_poll status fuel = none) := by
  constructor
  · intro i secs h
    obtain ⟨h1, _, h3, h4⟩ := pollUntilComplete_sound status fuel 0 i secs h
    exact ⟨h1, fun j hj => h3 j (Nat.zero_le j) hj, h4⟩
  · intro hnever
    exact pollUntilComplete_none_of_never status hnever fuel 0

/-- Witness for C4: a status sequence that becomes ready at the third poll
returns index 2 after 40 seconds of sleeping; a sequence stuck at
`ROLLBACK_COMPLETE` never returns (fuel 5). -/
theorem get_stack_outputs_poll_spec_witness :
    ((fun n => if n = 2 then "CREATE_COMPLETE" else "CREATE_IN_PROGRESS") 2
        = createComplete ∧
      (∀ j, j < 2 →
        (fun n => if n = 2 then "CREATE_COMPLETE" else "CREATE_IN_PROGRESS") j
          ≠ createComplete) ∧
      40 = pollIntervalSecs * 2) ∧
    get_stack_outputs_poll (fun _ => "ROLLBACK_COMPLETE") 5 = none :=
  ⟨(get_stack_outputs_poll_spec
      (fun n => if n = 2 then "CREATE_COMPLETE" else "CREATE_IN_PROGRESS") 10).1
      2 40 (by decide),
   (get_stack_outputs_poll_spec (fun _ => "ROLLBACK_COMPLETE") 5).2
      (fun n => by decide)⟩

theorem lookup_setField_self (fields : List (String × Json)) (key : String) (v : Json)
    (h : (List.lookup key fields).isSome) :
    List.lookup key (setField fields key v) = some v := by
  induction fields with
  | nil => simp [List.lookup] at h
  | cons kv rest ih =>
    rcases kv with ⟨k, w⟩
    by_cases hk : k = key
    · subst hk
      simp [setField, List.lookup]
    · have hk' : ¬(key = k) := fun e => hk e.symm
      have hb : (key == k) = false := by simp [hk']
      simp only [List.lookup, hb] at h
      simp [setField, hk, List.lookup, hb]
      exact ih h

theorem lookup_setField_other (fields : List (String × Json)) (key : String) (v : Json)
    (k : String) (hk : k ≠ key) :
    List.lookup k (setField fields key v) = List.lookup k fields := by
  induction fields with
  | nil => rfl
  | cons kw rest ih =>
    rcases kw with ⟨k', w⟩
    by_cases hks : k' = key
    · subst hks
      have hb : (k == k') = false := by simp [hk]
      simp [setField, List.lookup, hb]
    · simp only [setField, if_neg hks, List.lookup]
      cases hkk : k == k'
      · simp only [hkk]
        exact ih
      · simp only [hkk]

theorem updateField_eq_setField (fields : List (String × Json)) (key : String)
    (f : Json → Json) (v : Json) (h : List.lookup key fields = some v) :
    updateField fields key f = setField fields key (f v) := by
  induction fields with
  | nil => rfl
  | cons kw rest ih =>
    rcases kw with ⟨k, w⟩
    by_cases hk : k = key
    · subst hk
      simp [List.lookup] at h
      simp [updateField, setField, h]
    · have hk' : ¬(key = k) := fun e => hk e.symm
      have hb : (key == k) = false := by simp [hk']
      simp [List.lookup, hb] at h
      simp [updateField, setField, hk]
      exact ih h

/-- C5: merging the new grant into an existing policy whose `Statement`
array holds exactly one statement yields the same object with a
two-element `Statement` array — the first element is the existing statement
unchanged, the second is the new grant; every other field of the policy is
untouched, and the new grant carries the resource ARN
`arn:aws:s3:::<bucket><prefix>/*` and the `aws:sourceVpce == <endpoint>`
condition. -/
theorem add_bucket_policy_merge (bucket pfx vpcid : String)
    (fields : List (String × Json)) (s : Json)
    (h : List.lookup "Statement" fields = some (.arr [s])) :
    add_bucket_policy bucket pfx vpcid (some (.obj fields))
      = .ok (.obj (setField fields "Statement"
          (.arr [s, new_bucket_policy bucket pfx vpcid]))) ∧
    List.lookup "Statement" (setField fields "Statement"
        (.arr [s, new_bucket_policy bucket pfx vpcid]))
      = some (.arr [s, new_bucket_policy bucket pfx vpcid]) ∧
    (∀ k, k ≠ "Statement" →
      List.lookup k (setField fields "Statement"
          (.arr [s, new_bucket_policy bucket pfx vpcid]))
        = List.lookup k fields) ∧
    jsonGet (new_bucket_policy bucket pfx vpcid) "Resource"
      = some (.str ("arn:aws:s3:::" ++ bucket ++ pfx ++ "/*")) ∧
    jsonGet (new_bucket_policy bucket pfx vpcid) "Condition"
      = some (.obj [("StringEquals", .obj [("aws:sourceVpce", .str vpcid)])]) := by
  refine ⟨?_, ?_, ?_, rfl, rfl⟩
  · simp only [add_bucket_policy, h]
    rw [updateField_eq_setField fields "Statement" _ (.arr [s]) h]
    rfl
  · exact lookup_setField_self fields "Statement" _ (by rw [h]; rfl)
  · intro k hk
    exact lookup_setField_other fields "Statement" _ k hk

/-- Witness for C5: bucket `example-bucket`, prefix `/tuf`, endpoint
`vpce-123`, and an existing single-statement policy: the result keeps the
old statement first, appends the new grant second, and the grant's resource
ARN is `arn:aws:s3:::example-bucket/tuf/*`. -/
theorem add_bucket_policy_merge_witness :
    List.lookup "Statement"
        [("Version", Json.str "2008-10-17"), ("Statement", Json.arr [Json.str "old"])]
      = some (Json.arr [Json.str "old"]) ∧
    add_bucket_policy "example-bucket" "/tuf" "vpce-123"
        (some (.obj [("Version", Json.str "2008-10-17"),
                     ("Statement", Json.arr [Json.str "old"])]))
      = .ok (.obj [("Version", Json.str "2008-10-17"),
                   ("Statement", Json.arr [Json.str "old",
                      new_bucket_policy "example-bucket" "/tuf" "vpce-123"])]) ∧
    jsonGet (new_bucket_policy "example-bucket" "/tuf" "vpce-123") "Resource"
      = some (.str "arn:aws:s3:::example-bucket/tuf/*") :=
  ⟨rfl,
   (add_bucket_policy_merge "example-bucket" "/tuf" "vpce-123"
      [("Version", Json.str "2008-10-17"), ("Statement", Json.arr [Json.str "old"])]
      (Json.str "old") rfl).1.trans rfl,
   ((add_bucket_policy_merge "example-bucket" "/tuf" "vpce-123"
      [("Version", Json.str "2008-10-17"), ("Statement", Json.arr [Json.str "old"])]
      (Json.str "old") rfl).2.2.2.1).trans rfl⟩

/-- C6: the output extraction of `create_s3_bucket` returns the first two
stack outputs positionally — `outputs[0]` as bucket name, `outputs[1]` as
bucket URL — and for every output list with fewer than two elements the
operation fails (the out-of-bounds access aborts instead of returning a
value). -/
theorem create_s3_bucket_outputs_spec (stack_name : String) (stack_id : Option String)
    (outputs : List StackOutput) :
    (outputs.length < 2 →
      ∀ r, create_s3_bucket_outputs stack_name stack_id outputs ≠ .ok r) ∧
    (∀ a o0 o1 v0 v1, stack_id = some a → outputs.get? 0 = some o0 →
      o0.output_value = some v0 → outputs.get? 1 = some o1 → o1.output_value = some v1 →
      create_s3_bucket_outputs stack_name stack_id outputs = .ok (a, v0, v1)) := by
  constructor
  · intro hlen r
    cases stack_id with
    | none => simp [create_s3_bucket_outputs]
    | some a =>
      cases outputs with
      | nil => simp [create_s3_bucket_outputs, indexGet, List.get?]
      | cons o rest =>
        cases rest with
        | nil =>
          cases hv : o.output_value <;>
            simp [create_s3_bucket_outputs, indexGet, List.get?, hv]
        | cons o2 rest2 => simp at hlen; omega
  · intro a o0 o1 v0 v1 ha h0 hv0 h1 hv1
    subst ha
    simp only [List.get?_eq_getElem?] at h0 h1
    simp [create_s3_bucket_outputs, indexGet, h0, h1, hv0, hv1]

/-- Witness for C6: a single-element output list fails; a two-element output
list with values yields the stack ARN and both values positionally. -/
theorem create_s3_bucket_outputs_spec_witness :
    (([(⟨some "BucketName", some "my-bucket"⟩ : StackOutput)].length < 2) ∧
      create_s3_bucket_outputs "my-stack" (some "arn:stack")
          [⟨some "BucketName", some "my-bucket"⟩]
        ≠ .ok ("arn:stack", "my-bucket", "https-url")) ∧
    create_s3_bucket_outputs "my-stack" (some "arn:stack")
        [⟨some "BucketName", some "my-bucket"⟩, ⟨some "BucketUrl", some "https-url"⟩]
      = .ok ("arn:stack", "my-bucket", "https-url") :=
  ⟨⟨by decide,
    (create_s3_bucket_outputs_spec "my-stack" (some "arn:stack")
        [⟨some "BucketName", some "my-bucket"⟩]).1 (by decide)
      ("arn:stack", "my-bucket", "https-url")⟩,
   (create_s3_bucket_outputs_spec "my-stack" (some "arn:stack")
        [⟨some "BucketName", some "my-bucket"⟩, ⟨some "BucketUrl", some "https-url"⟩]).2
      "arn:stack" ⟨some "BucketName", some "my-bucket"⟩ ⟨some "BucketUrl", some "https-url"⟩
      "my-bucket" "https-url" rfl rfl rfl rfl rfl⟩

theorem assign_metadata_url_frame (parseUrl : String → Option String)
    (rc : RepoOutputs) (b p : String) (rc' : RepoOutputs)
    (h : assign_metadata_url parseUrl rc b p = .ok rc') :
    rc'.targets_url = rc.targets_url ∧ rc'.root_role_url = rc.root_role_url ∧
    rc'.root_role_sha512 = rc.root_role_sha512 ∧
    (∀ v, rc.metadata_base_url = some v → rc'.metadata_base_url = some v) := by
  rcases rc with ⟨m, t, ru, rs⟩
  cases m with
  | some u =>
    simp only [assign_metadata_url] at h
    injection h with h
    subst h
    exact ⟨rfl, rfl, rfl, fun v hv => hv⟩
  | none =>
    simp only [assign_metadata_url] at h
    cases hp : parseUrl (b ++ p ++ "/metadata/") with
    | none => rw [hp] at h; exact Except.noConfusion h
    | some u =>
      rw [hp] at h
      injection h with h
      subst h
      refine ⟨rfl, rfl, rfl, fun v hv => ?_⟩
      exact Option.noConfusion hv

theorem assign_targets_url_frame (parseUrl : String → Option String)
    (rc : RepoOutputs) (b p : String) (rc' : RepoOutputs)
    (h : assign_targets_url parseUrl rc b p = .ok rc') :
    rc'.metadata_base_url = rc.metadata_base_url ∧ rc'.root_role_url = rc.root_role_url ∧
    rc'.root_role_sha512 = rc.root_role_sha512 ∧
    (∀ v, rc.targets_url = some v → rc'.targets_url = some v) := by
  rcases rc with ⟨m, t, ru, rs⟩
  cases t with
  | some u =>
    simp only [assign_targets_url] at h
    injection h with h
    subst h
    exact ⟨rfl, rfl, rfl, fun v hv => hv⟩
  | none =>
    simp only [assign_targets_url] at h
    cases hp : parseUrl (b ++ p ++ "/targets/") with
    | none => rw [hp] at h; exact Except.noConfusion h
    | some u =>
      rw [hp] at h
      injection h with h
      subst h
      refine ⟨rfl, rfl, rfl, fun v hv => ?_⟩
      exact Option.noConfusion hv

theorem assign_root_role_url_frame (parseUrl : String → Option String)
    (rc : RepoOutputs) (b p d : String) (rc' : RepoOutputs)
    (h : assign_root_role_url parseUrl rc b p d = .ok rc') :
    rc'.metadata_base_url = rc.metadata_base_url ∧ rc'.targets_url = rc.targets_url ∧
    (∀ u, rc.root_role_url = some u →
      rc'.root_role_url = some u ∧ rc'.root_role_sha512 = rc.root_role_sha512) := by
  rcases rc with ⟨m, t, ru, rs⟩
  cases ru with
  | some u =>
    simp only [assign_root_role_url] at h
    injection h with h
    subst h
    exact ⟨rfl, rfl, fun u' hu => ⟨hu, rfl⟩⟩
  | none =>
    simp only [assign_root_role_url] at h
    cases hp : parseUrl (b ++ p ++ "/root.json") with
    | none => rw [hp] at h; exact Except.noConfusion h
    | some u =>
      rw [hp] at h
      injection h with h
      subst h
      refine ⟨rfl, rfl, fun u' hu => ?_⟩
      exact Option.noConfusion hu

/-- Counterexample to C7 as stated: on a `RepoConfig` whose
`root_role_sha512` is already `some "oldhash"` but whose `root_role_url` is
still `None`, the output-assignment step overwrites `root_role_sha512` with
the freshly computed digest `"newhash"` — the field was `Some` and did not
keep its value. -/
theorem update_outputs_overwrites_sha512 :
    update_outputs Option.some
        { metadata_base_url := some "m", targets_url := some "t",
          root_role_url := none, root_role_sha512 := some "oldhash" }
        "https-bucket" "/tuf" "newhash"
      = .ok { metadata_base_url := some "m", targets_url := some "t",
              root_role_url := some "https-bucket/tuf/root.json",
              root_role_sha512 := some "newhash" } ∧
    (some "newhash" : Option String) ≠ some "oldhash" :=
  ⟨rfl, by decide⟩

/-- C7 (amended): if the output-assignment step succeeds, each of
`metadata_base_url`, `targets_url` and `root_role_url` that was already
`Some` keeps its value, and `root_role_sha512` keeps its value whenever
`root_role_url` was already `Some`; but when `root_role_url` is `None` the
step recomputes `root_role_sha512` unconditionally, overwriting any
previous value (see the counterexample). -/
theorem update_outputs_idempotent (parseUrl : String → Option String)
    (rc : RepoOutputs) (b p d : String) (rc' : RepoOutputs)
    (hok : update_outputs parseUrl rc b p d = .ok rc') :
    (∀ v, rc.metadata_base_url = some v → rc'.metadata_base_url = some v) ∧
    (∀ v, rc.targets_url = some v → rc'.targets_url = some v) ∧
    (∀ v, rc.root_role_url = some v → rc'.root_role_url = some v) ∧
    (∀ u v, rc.root_role_url = some u → rc.root_role_sha512 = some v →
      rc'.root_role_sha512 = some v) := by
  unfold update_outputs at hok
  cases h1 : assign_metadata_url parseUrl rc b p with
  | error e =>
    simp only [h1] at hok
    exact Except.noConfusion hok
  | ok rc1 =>
    simp only [h1] at hok
    cases h2 : assign_targets_url parseUrl rc1 b p with
    | error e =>
      simp only [h2] at hok
      exact Except.noConfusion hok
    | ok rc2 =>
      simp only [h2] at hok
      obtain ⟨m1t, m1r, m1s, m1m⟩ := assign_metadata_url_frame parseUrl rc b p rc1 h1
      obtain ⟨m2m, m2r, m2s, m2t⟩ := assign_targets_url_frame parseUrl rc1 b p rc2 h2
      obtain ⟨m3m, m3t, m3r⟩ := assign_root_role_url_frame parseUrl rc2 b p d rc' hok
      refine ⟨?_, ?_, ?_, ?_⟩
      · intro v hv
        rw [m3m, m2m]
        exact m1m v hv
      · intro v hv
        exact m3t ▸ m2t v (m1t ▸ hv)
      · intro v hv
        exact (m3r v (m2r.trans (m1r.trans hv))).1
      · intro u v hu hs
        rw [(m3r u (m2r.trans (m1r.trans hu))).2, m2s, m1s]
        exact hs

/-- Witness for C7 (amended): on a configuration whose four output fields
are all set, the step succeeds and `root_role_sha512` keeps its value. -/
theorem update_outputs_idempotent_witness :
    update_outputs Option.some
        { metadata_base_url := some "m", targets_url := some "t",
          root_role_url := some "r", root_role_sha512 := some "h" } "b" "/p" "d"
      = .ok { metadata_base_url := some "m", targets_url := some "t",
              root_role_url := some "r", root_role_sha512 := some "h" } ∧
    ({ metadata_base_url := some "m", targets_url := some "t",
       root_role_url := some "r", root_role_sha512 := some "h" } : RepoOutputs).root_role_sha512
      = some "h" :=
  ⟨rfl,
   (update_outputs_idempotent Option.some
      { metadata_base_url := some "m", targets_url := some "t",
        root_role_url := some "r", root_role_sha512 := some "h" } "b" "/p" "d"
      { metadata_base_url := some "m", targets_url := some "t",
        root_role_url := some "r", root_role_sha512 := some "h" } rfl).2.2.2
      "r" "h" rfl rfl⟩

theorem run_repos_no_lock (p : String → Option Err) (rs : List String) :
    InfraEvent.wroteLock ∉ (run_repos p rs).1 := by
  induction rs with
  | nil => simp [run_repos]
  | cons n rest ih =>
    cases hn : p n with
    | some e => simp [run_repos, hn]
    | none =>
      simp [run_repos, hn]
      exact ih

theorem run_repos_success_events (p : String → Option Err) (rs : List String)
    (h : (run_repos p rs).2 = none) :
    (run_repos p rs).1 = rs.map InfraEvent.processed := by
  induction rs with
  | nil => rfl
  | cons n rest ih =>
    cases hn : p n with
    | some e => simp [run_repos, hn] at h
    | none =>
      simp only [run_repos, hn] at h ⊢
      rw [List.map_cons]
      exact congrArg _ (ih h)

theorem run_repos_first_err (p : String → Option Err) (pre : List String) (n : String)
    (post : List String) (e : Err) (hpre : ∀ m ∈ pre, p m = none) (hn : p n = some e) :
    (run_repos p (pre ++ n :: post)).2 = some e := by
  induction pre with
  | nil => simp [run_repos, hn]
  | cons m rest ih =>
    have hm : p m = none := hpre m (by simp)
    simp only [List.cons_append, run_repos, hm]
    exact ih (fun x hx => hpre x (by simp [hx]))

/-- C8: if processing any repository entry fails (every entry before it
having succeeded), `create_infra` propagates that entry's error and the
`Infra.lock` write never happens; when every entry succeeds, the event
trace is exactly one `processed` event per repository entry followed by a
single `wroteLock` — the lock file is written exactly once, after all
entries. -/
theorem create_infra_lock_discipline (process : String → Option Err)
    (repos : List String) :
    (∀ pre n post e, repos = pre ++ n :: post → (∀ m ∈ pre, process m = none) →
      process n = some e →
      (create_infra process repos).2 = some e ∧
      InfraEvent.wroteLock ∉ (create_infra process repos).1) ∧
    ((create_infra process repos).2 = none →
      (create_infra process repos).1
        = repos.map InfraEvent.processed ++ [InfraEvent.wroteLock] ∧
      (create_infra process repos).1.count InfraEvent.wroteLock = 1) := by
  constructor
  · intro pre n post e hsplit hpre hn
    subst hsplit
    have herr := run_repos_first_err process pre n post e hpre hn
    have hnolock := run_repos_no_lock process (pre ++ n :: post)
    unfold create_infra
    simp only [herr]
    exact ⟨trivial, hnolock⟩
  · intro hnone
    cases hr : (run_repos process repos).2 with
    | some e =>
      unfold create_infra at hnone
      simp only [hr] at hnone
      exact Option.noConfusion hnone
    | none =>
      have hev := run_repos_success_events process repos hr
      have hnolockmap : InfraEvent.wroteLock ∉ repos.map InfraEvent.processed := by
        simp [List.mem_map]
      constructor
      · unfold create_infra
        simp only [hr, hev]
      · unfold create_infra
        simp only [hr, hev]
        rw [List.count_append, List.count_eq_zero.mpr hnolockmap]
        rfl

/-- Witness for C8: with entries `["alpha", "bad", "gamma"]` where only
`"bad"` fails, the error propagates and no lock write appears in the trace;
with two succeeding entries the trace is their two `processed` events and
one final `wroteLock`. -/
theorem create_infra_lock_discipline_witness :
    ((create_infra (fun n => if n = "bad" then some Err.keyCreation else none)
        ["alpha", "bad", "gamma"]).2 = some Err.keyCreation ∧
      InfraEvent.wroteLock ∉
        (create_infra (fun n => if n = "bad" then some Err.keyCreation else none)
          ["alpha", "bad", "gamma"]).1) ∧
    (create_infra (fun _ => none) ["alpha", "beta"]).1
      = [InfraEvent.processed "alpha", InfraEvent.processed "beta",
         InfraEvent.wroteLock] :=
  ⟨(create_infra_lock_discipline (fun n => if n = "bad" then some Err.keyCreation else none)
      ["alpha", "bad", "gamma"]).1 ["alpha"] "bad" ["gamma"] Err.keyCreation rfl
      (by decide) (by decide),
   ((create_infra_lock_discipline (fun _ => none) ["alpha", "beta"]).2 (by decide)).1.trans
      (by decide)⟩
